import Mathlib

/-!
Shallow embedding of the `testcli` Go package (src/main.go): a CLI-testing
harness built on os/exec.  Pure data and state transitions are modelled as
Lean functions; calls to `t.Fatal` (aborting the enclosing test) and nil
pointer dereferences are made explicit through the `TestOutcome` type.
External effects (the OS process launch, its exit status and the bytes it
writes) enter as explicit parameters (`ExecResult`, `StartEnv`, poll
snapshot lists), mirroring exactly what the Go code does with them.
-/

namespace Testcli

/-- Go `error` values are modelled by their message string. -/
abbrev GoError := String

/-- `var ErrUninitializedCmd = errors.New("You need to run this command first")`. -/
def ErrUninitializedCmd : GoError := "You need to run this command first"

/-- `var ErrCmdNotFinished = errors.New("Command is still executing")`. -/
def ErrCmdNotFinished : GoError := "Command is still executing"

/-- The three status constants of src/main.go: `initialized`, `running`,
`finished`. -/
inductive Status where
  | initialized
  | running
  | finished
  deriving DecidableEq, Repr

/-- `type output struct { content string; mu *sync.Mutex }` — the mutex only
serialises access and has no observable content, so the model keeps the
`content` field. -/
structure Output where
  content : String
  deriving DecidableEq, Repr

/-- The result of running a method of the package: `ok v` is a normal return,
`fatal e` models `t.Fatal(e)` aborting the enclosing test, and `nilPanic`
models a nil pointer dereference crash. -/
inductive TestOutcome (α : Type) where
  | ok (val : α)
  | fatal (err : GoError)
  | nilPanic
  deriving DecidableEq, Repr

/-- `type Cmd struct` of src/main.go.  `cmd *exec.Cmd` is split into the
constructor arguments (`name`, `args`) and the parts of the `exec.Cmd` state
the package's control flow depends on: `process` (whether `cmd.Process` has
been set by a successful launch, i.e. is non-nil) and `stdoutSet`/`stderrSet`
(whether `cmd.Stdout`/`cmd.Stderr` have been assigned — by `Run`'s capture
buffers or by `Start`'s pipes — which `exec.Cmd`'s own state checks consult
before a second launch).  The `t *testing.T` field is modelled by the
`TestOutcome` result type of each method. -/
structure Cmd where
  name : String
  args : List String
  env : Option (List String)
  stdin : Option String
  exitError : Option GoError
  status : Status
  stdout : Output
  stderr : Output
  process : Option Unit
  stdoutSet : Bool
  stderrSet : Bool
  deriving DecidableEq, Repr

/-- `func Command(t, name, arg...) *Cmd`: fresh handle, status `initialized`,
empty buffers; the remaining Go struct fields take their zero values. -/
def Command (name : String) (args : List String) : Cmd :=
  { name := name
    args := args
    env := none
    stdin := none
    exitError := none
    status := .initialized
    stdout := ⟨""⟩
    stderr := ⟨""⟩
    process := none
    stdoutSet := false
    stderrSet := false }

/-- `func (c *Cmd) validateIsFinished()`: `some e` means `c.t.Fatal(e)` fires. -/
def Cmd.validateIsFinished (c : Cmd) : Option GoError :=
  if c.status ≠ .finished then some ErrCmdNotFinished else none

/-- `func (c *Cmd) validateHasStarted()`: after `Start()` status can either be
running or finished. -/
def Cmd.validateHasStarted (c : Cmd) : Option GoError :=
  if ¬ (c.status = .running ∨ c.status = .finished) then some ErrUninitializedCmd
  else none

/-- `func (c *Cmd) SetEnv(env []string)`. -/
def Cmd.SetEnv (c : Cmd) (env : List String) : Cmd :=
  { c with env := some env }

/-- `func (c *Cmd) SetStdin(stdin io.Reader)` — the reader is modelled by the
bytes it will deliver. -/
def Cmd.SetStdin (c : Cmd) (stdin : String) : Cmd :=
  { c with stdin := some stdin }

/-- What the external, synchronous `c.cmd.Run()` call produces: whether the
fork/exec inside it succeeded (setting `cmd.Process`), its error (nil on a
zero exit; a launch failure or nonzero exit otherwise) and the bytes captured
into the stdout/stderr buffers. -/
structure ExecResult where
  started : Bool
  exitErr : Option GoError
  stdoutData : String
  stderrData : String
  deriving DecidableEq, Repr

/-- `func (c *Cmd) Run()`: assigns `cmd.Stdout`/`cmd.Stderr` to fresh capture
buffers, runs the process to completion, records a non-nil error in
`exitError` (and never aborts the test for it), stores the captured bytes,
and sets status to `finished`. -/
def Cmd.Run (c : Cmd) (res : ExecResult) : Cmd :=
  let c0 := { c with stdoutSet := true, stderrSet := true,
                     process := if res.started then some () else c.process }
  let c1 := match res.exitErr with
    | some e => { c0 with exitError := some e }
    | none => c0
  { c1 with stdout := ⟨res.stdoutData⟩, stderr := ⟨res.stderrData⟩, status := .finished }

/-- The external, OS-level outcomes inside `Start()`: the error (if any) of
the `os.Pipe()` call inside `c.cmd.StdoutPipe()` resp. `c.cmd.StderrPipe()`
— reached only after `exec.Cmd`'s own deterministic state checks pass — and
the error (if any) of the fork/exec inside `c.cmd.Start()`. -/
structure StartEnv where
  stdoutPipeErr : Option GoError
  stderrPipeErr : Option GoError
  launchErr : Option GoError
  deriving DecidableEq, Repr

/-- `func (c *Cmd) Start()`: `c.cmd.StdoutPipe()` first runs `exec.Cmd`'s
state checks — it errors with "exec: Stdout already set" when `cmd.Stdout`
was already assigned (as on every handle that has gone through `Run()` or
`Start()` before) and with "exec: StdoutPipe after process started" when
`cmd.Process` is non-nil — then may fail in `os.Pipe()`; `StderrPipe()`
likewise for `cmd.Stderr`.  Any such pipe error is `t.Fatal` in src/main.go,
aborting before the status is touched.  Past the pipes, `cmd.Process` is
necessarily nil (the pipe checks ruled out a started process), so
`c.cmd.Start()`'s own "exec: already started" branch is unreachable and its
error is the fork/exec outcome: a launch error is recorded in `exitError`
(leaving `cmd.Process` nil) and the function continues; either way the status
is then set to `running`.  The two pump goroutines it spawns are modelled
separately (`scanLines`, `pumpRun`). -/
def Cmd.Start (c : Cmd) (env : StartEnv) : TestOutcome Cmd :=
  if c.stdoutSet then .fatal "exec: Stdout already set"
  else if c.process.isSome then .fatal "exec: StdoutPipe after process started"
  else
    match env.stdoutPipeErr with
    | some e => .fatal e
    | none =>
      let c1 := { c with stdoutSet := true }
      if c1.stderrSet then .fatal "exec: Stderr already set"
      else if c1.process.isSome then .fatal "exec: StderrPipe after process started"
      else
        match env.stderrPipeErr with
        | some e => .fatal e
        | none =>
          let c2 := { c1 with stderrSet := true }
          let c3 := match env.launchErr with
            | some e => { c2 with exitError := some e }
            | none => { c2 with process := some () }
          .ok { c3 with status := .running }

/-- `func (c *Cmd) Wait()`: fatal unless the handle has started; records the
error of `c.cmd.Wait()` and sets status to `finished`. -/
def Cmd.Wait (c : Cmd) (res : Option GoError) : TestOutcome Cmd :=
  match c.validateHasStarted with
  | some e => .fatal e
  | none =>
    let c1 := match res with
      | some e => { c with exitError := some e }
      | none => c
    .ok { c1 with status := .finished }

/-- `func (c *Cmd) Kill()`: fatal unless started; `c.cmd.Process.Kill()`
dereferences `cmd.Process`, which is nil when the launch failed; a kill error
is fatal; otherwise status becomes `finished`. -/
def Cmd.Kill (c : Cmd) (killErr : Option GoError) : TestOutcome Cmd :=
  match c.validateHasStarted with
  | some e => .fatal e
  | none =>
    match c.process with
    | none => .nilPanic
    | some _ =>
      match killErr with
      | some e => .fatal e
      | none => .ok { c with status := .finished }

/-- `func (c *Cmd) Error() error`. -/
def Cmd.Error (c : Cmd) : TestOutcome (Option GoError) :=
  match c.validateIsFinished with
  | some e => .fatal e
  | none => .ok c.exitError

/-- `func (c *Cmd) Success() bool`: `c.exitError == nil`. -/
def Cmd.Success (c : Cmd) : TestOutcome Bool :=
  match c.validateIsFinished with
  | some e => .fatal e
  | none => .ok c.exitError.isNone

/-- `func (c *Cmd) Failure() bool`: `c.exitError != nil`. -/
def Cmd.Failure (c : Cmd) : TestOutcome Bool :=
  match c.validateIsFinished with
  | some e => .fatal e
  | none => .ok c.exitError.isSome

/-- `func (c *Cmd) Stdout() string`. -/
def Cmd.Stdout (c : Cmd) : TestOutcome String :=
  match c.validateHasStarted with
  | some e => .fatal e
  | none => .ok c.stdout.content

/-- `func (c *Cmd) Stderr() string`. -/
def Cmd.Stderr (c : Cmd) : TestOutcome String :=
  match c.validateHasStarted with
  | some e => .fatal e
  | none => .ok c.stderr.content

/-- Go `strings.ToLower` on one character, for the ASCII range the tests
exercise: `'A'..'Z'` maps to `'a'..'z'`, everything else is unchanged. -/
def goToLowerChar (ch : Char) : Char :=
  if 65 ≤ ch.toNat ∧ ch.toNat ≤ 90 then Char.ofNat (ch.toNat + 32) else ch

/-- Go `strings.ToLower(s)` (ASCII). -/
def goToLower (s : String) : String :=
  ⟨s.data.map goToLowerChar⟩

/-- `needle` is a leading segment of `haystack` (character lists). -/
def leadsWith : List Char → List Char → Bool
  | [], _ => true
  | _ :: _, [] => false
  | a :: as, b :: bs => a == b && leadsWith as bs

/-- `needle` occurs contiguously somewhere inside `haystack`. -/
def occursWithin (needle haystack : List Char) : Bool :=
  match haystack with
  | [] => needle.isEmpty
  | _ :: rest => leadsWith needle haystack || occursWithin needle rest

/-- Go `strings.Contains(s, substr)`: `substr` occurs inside `s`. -/
def goContains (s substr : String) : Bool :=
  occursWithin substr.toList s.toList

/-- `func retryStringTest(testFunc, output, expected) bool` of src/main.go.
The loop polls the live buffer on a 100 ms ticker and gives up at a 1 s
timeout; `polls` is the finite sequence of buffer snapshots the ticks
observe under the mutex (at most ten before the timeout fires).  Each tick
evaluates `testFunc(strings.ToLower(output.content), expected)` and returns
`true` at the first success; the timeout returns `false`. -/
def retryStringTest (testFunc : String → String → Bool) (polls : List String)
    (expected : String) : Bool :=
  match polls with
  | [] => false
  | snap :: rest =>
    if testFunc (goToLower snap) expected then true
    else retryStringTest testFunc rest expected

/-- `func (c *Cmd) StdoutContains(str string) bool`: lowercases `str` and runs
`retryStringTest(strings.Contains, c.stdout, str)`. -/
def Cmd.StdoutContains (c : Cmd) (str : String) (polls : List String) :
    TestOutcome Bool :=
  match c.validateHasStarted with
  | some e => .fatal e
  | none => .ok (retryStringTest goContains polls (goToLower str))

/-- `func (c *Cmd) StderrContains(str string) bool`. -/
def Cmd.StderrContains (c : Cmd) (str : String) (polls : List String) :
    TestOutcome Bool :=
  match c.validateHasStarted with
  | some e => .fatal e
  | none => .ok (retryStringTest goContains polls (goToLower str))

/-- Modelled from the Go standard library's `regexp` (outside this
repository): for a pattern that is a literal — no regular-expression
metacharacters — `regexp.MustCompile(pattern).MatchString(s)` holds exactly
when `pattern` occurs as a substring of `s`. -/
def literalMatchString (pattern s : String) : Bool :=
  goContains s pattern

/-- `func (c *Cmd) StdoutMatches(regex string) bool`, for literal patterns:
compiles `regex` unchanged and runs `retryStringTest` with the closure
`func(got, want string) bool { return re.MatchString(got) }` — note the
pattern is never lowercased, only the buffer snapshot is. -/
def Cmd.StdoutMatches (c : Cmd) (regex : String) (polls : List String) :
    TestOutcome Bool :=
  match c.validateHasStarted with
  | some e => .fatal e
  | none =>
    .ok (retryStringTest (fun got _ => literalMatchString regex got) polls regex)

/-- `func (c *Cmd) StderrMatches(regex string) bool`, for literal patterns. -/
def Cmd.StderrMatches (c : Cmd) (regex : String) (polls : List String) :
    TestOutcome Bool :=
  match c.validateHasStarted with
  | some e => .fatal e
  | none =>
    .ok (retryStringTest (fun got _ => literalMatchString regex got) polls regex)

/-- `var pkgCmd *Cmd` of src/main.go: the package-level last-result slot is a
nil pointer until the first package-level `Run`. -/
def initialPkgCmd : Option Cmd := none

/-- `func Run(t, name, arg...)`: constructs a fresh handle, runs it, and
stores it in the slot. -/
def pkgRun (name : String) (args : List String) (res : ExecResult) : Option Cmd :=
  some ((Command name args).Run res)

/-- `func Error() error`: `pkgCmd.t.Helper()` dereferences the slot before
anything else, so a nil slot crashes. -/
def pkgError : Option Cmd → TestOutcome (Option GoError)
  | none => .nilPanic
  | some c => c.Error

/-- `func Stdout() string` (package level). -/
def pkgStdout : Option Cmd → TestOutcome String
  | none => .nilPanic
  | some c => c.Stdout

/-- `func Stderr() string` (package level). -/
def pkgStderr : Option Cmd → TestOutcome String
  | none => .nilPanic
  | some c => c.Stderr

/-- `func Success() bool` (package level). -/
def pkgSuccess : Option Cmd → TestOutcome Bool
  | none => .nilPanic
  | some c => c.Success

/-- `func Failure() bool` (package level). -/
def pkgFailure : Option Cmd → TestOutcome Bool
  | none => .nilPanic
  | some c => c.Failure

/-- `func StdoutContains(str string) bool` (package level). -/
def pkgStdoutContains (p : Option Cmd) (str : String) (polls : List String) :
    TestOutcome Bool :=
  match p with
  | none => .nilPanic
  | some c => c.StdoutContains str polls

/-- `func StderrContains(str string) bool` (package level). -/
def pkgStderrContains (p : Option Cmd) (str : String) (polls : List String) :
    TestOutcome Bool :=
  match p with
  | none => .nilPanic
  | some c => c.StderrContains str polls

/-- `func StdoutMatches(regex string) bool` (package level). -/
def pkgStdoutMatches (p : Option Cmd) (regex : String) (polls : List String) :
    TestOutcome Bool :=
  match p with
  | none => .nilPanic
  | some c => c.StdoutMatches regex polls

/-- `func StderrMatches(regex string) bool` (package level). -/
def pkgStderrMatches (p : Option Cmd) (regex : String) (polls : List String) :
    TestOutcome Bool :=
  match p with
  | none => .nilPanic
  | some c => c.StderrMatches regex polls

/-!  The stream pumps.  Each pump goroutine of `Start()` runs
`bufio.NewScanner(pipe)` with the default `bufio.ScanLines` split and
executes `c.stdout.content += scanner.Text() + "\n"` per token.
`ScanLines` yields each `\n`-terminated line with the `\n` removed and one
trailing `\r` dropped (`dropCR`), and at end of data yields the remaining
bytes, if any, as a final token. -/

/-- `func dropCR(data []byte) []byte` of bufio: strips one terminal `\r`. -/
def dropCR (data : List Char) : List Char :=
  if data.getLast? = some '\r' then data.dropLast else data

/-- The token sequence `bufio.ScanLines` produces; `acc` holds the characters
of the current token in reverse. -/
def scanLinesAux : List Char → List Char → List (List Char)
  | [], acc => if acc.isEmpty then [] else [dropCR acc.reverse]
  | ch :: rest, acc =>
    if ch = '\n' then dropCR acc.reverse :: scanLinesAux rest []
    else scanLinesAux rest (ch :: acc)

/-- All tokens the scanner yields for a complete stream `data`. -/
def scanLines (data : List Char) : List (List Char) :=
  scanLinesAux data []

/-- One pump iteration: `content += scanner.Text() + "\n"`. -/
def pumpStep (content tok : List Char) : List Char :=
  content ++ (tok ++ ['\n'])

/-- The buffer content after the pump has appended the given tokens, starting
from the empty buffer. -/
def pumpRun (toks : List (List Char)) : List Char :=
  toks.foldl pumpStep []

/-- The final buffer content the pump accumulates for a stream that delivered
`data`. -/
def pumpContent (data : List Char) : List Char :=
  pumpRun (scanLines data)

/-- The buffer snapshot a reader takes after the pump has completed its first
`k` appends. -/
def pumpSnapshot (data : List Char) (k : Nat) : List Char :=
  pumpRun ((scanLines data).take k)

/-- Concatenation of a list of character lists. -/
def listJoin : List (List Char) → List Char
  | [] => []
  | x :: xs => x ++ listJoin xs

/-!  The lifecycle operations as a single step function, for reasoning about
operation sequences.  On a `fatal` or `nilPanic` outcome the step keeps the
handle unchanged: in the source, `status` is only ever assigned after the
last abort point of each operation, so the observed status is exact; the one
mutation that can precede an abort (`StdoutPipe` wiring `cmd.Stdout` before
`StderrPipe` fails) only strengthens the "already set" guard that the
unchanged state satisfies anyway. -/

/-- One lifecycle operation together with the behaviour of the external
process it involves. -/
inductive Op where
  | runOp (res : ExecResult)
  | startOp (env : StartEnv)
  | waitOp (res : Option GoError)
  | killOp (killErr : Option GoError)
  deriving DecidableEq, Repr

/-- The handle state after an operation (unchanged when it aborted). -/
def Cmd.applyOp (c : Cmd) : Op → Cmd
  | .runOp res => c.Run res
  | .startOp env =>
    match c.Start env with
    | .ok c1 => c1
    | _ => c
  | .waitOp res =>
    match c.Wait res with
    | .ok c1 => c1
    | _ => c
  | .killOp killErr =>
    match c.Kill killErr with
    | .ok c1 => c1
    | _ => c

/-- Reachability invariant of a handle: once the status has left
`initialized`, `cmd.Stdout` has been assigned (by `Run`'s capture buffer or
by `Start`'s pipe).  `Command` establishes it and every operation preserves
it; it is what makes a second `Start()` die in `StdoutPipe`'s "already set"
check before it can touch the status. -/
def handleInv (c : Cmd) : Bool :=
  c.status == .initialized || c.stdoutSet

/-- Position of a status along the machine
`initialized → running → finished`. -/
def statusRank : Status → Nat
  | .initialized => 0
  | .running => 1
  | .finished => 2

/-!  Helper lemmas. -/

/-- `retryStringTest` succeeds exactly when some polled snapshot satisfies the
(lowercased) test. -/
theorem retryStringTest_eq_true_iff (tf : String → String → Bool)
    (polls : List String) (e : String) :
    retryStringTest tf polls e = true ↔ ∃ s ∈ polls, tf (goToLower s) e = true := by
  induction polls with
  | nil => simp [retryStringTest]
  | cons p rest ih =>
    by_cases h : tf (goToLower p) e = true
    · simp [retryStringTest, h]
    · simp only [Bool.not_eq_true] at h
      simp [retryStringTest, h, ih]

/-- Polling a snapshot that never satisfies the test yields `false` however
often it is polled. -/
theorem retryStringTest_replicate_of_false (tf : String → String → Bool)
    (s e : String) (h : tf (goToLower s) e = false) (n : Nat) :
    retryStringTest tf (List.replicate n s) e = false := by
  induction n with
  | zero => rfl
  | succ m ih => simp [List.replicate_succ, retryStringTest, h, ih]

/-- Polling an unchanging snapshot at least once returns exactly the single
evaluation of the test on it. -/
theorem retryStringTest_replicate (tf : String → String → Bool) (s e : String)
    (n : Nat) (hn : 1 ≤ n) :
    retryStringTest tf (List.replicate n s) e = tf (goToLower s) e := by
  cases n with
  | zero => exact absurd hn (by simp)
  | succ m =>
    cases htf : tf (goToLower s) e with
    | true => simp [List.replicate_succ, retryStringTest, htf]
    | false =>
      simp [List.replicate_succ, retryStringTest, htf,
        retryStringTest_replicate_of_false tf s e htf m]

/-!  The claims. -/

/-- Claim C2: for every handle, `Error()`, `Success()` and `Failure()` return
a value exactly when the status is `finished`; in any other state each of
them aborts the enclosing test with `ErrCmdNotFinished` instead of returning
a value. -/
theorem finished_gates_error_success_failure (c : Cmd) :
    ((∃ v, c.Error = .ok v) ↔ c.status = .finished) ∧
    ((∃ b, c.Success = .ok b) ↔ c.status = .finished) ∧
    ((∃ b, c.Failure = .ok b) ↔ c.status = .finished) ∧
    (c.status ≠ .finished →
      c.Error = .fatal ErrCmdNotFinished ∧
      c.Success = .fatal ErrCmdNotFinished ∧
      c.Failure = .fatal ErrCmdNotFinished) := by
  by_cases h : c.status = .finished <;>
    simp [Cmd.Error, Cmd.Success, Cmd.Failure, Cmd.validateIsFinished, h]

/-- Claim C3: the eventual matcher is total and never errors: over the finite
sequence of snapshots its ticks observe before the fixed deadline, it returns
`true` exactly when some polled snapshot satisfies the predicate (the first
such poll makes the loop return), and returns plain `false` — no abort, no
hang — when the predicate holds at none of them, i.e. when the deadline
elapses without a match. -/
theorem retryStringTest_total_no_error (tf : String → String → Bool)
    (polls : List String) (e : String) :
    (retryStringTest tf polls e = true ↔ ∃ s ∈ polls, tf (goToLower s) e = true) ∧
    ((∀ s ∈ polls, tf (goToLower s) e = false) →
      retryStringTest tf polls e = false) := by
  refine ⟨retryStringTest_eq_true_iff tf polls e, fun hall => ?_⟩
  cases hr : retryStringTest tf polls e with
  | false => rfl
  | true =>
    rcases (retryStringTest_eq_true_iff tf polls e).mp hr with ⟨s, hmem, hs⟩
    rw [hall s hmem] at hs
    exact absurd hs (by simp)

/-- Claim C5: `Run()` treats a nonzero or abnormal exit as a normal outcome:
the handle finishes, `Failure()` returns `true`, `Success()` returns `false`,
and `Error()` hands back the recorded cause — none of the three aborts. -/
theorem run_nonzero_exit_is_normal (c : Cmd) (res : ExecResult)
    (h : res.exitErr ≠ none) :
    (c.Run res).status = .finished ∧
    (c.Run res).Failure = .ok true ∧
    (c.Run res).Success = .ok false ∧
    (c.Run res).Error = .ok res.exitErr := by
  rcases res with ⟨st, exitErr, so, se⟩
  cases exitErr with
  | none => exact absurd rfl h
  | some e =>
    simp [Cmd.Run, Cmd.Failure, Cmd.Success, Cmd.Error, Cmd.validateIsFinished]

/-- Witness for C5 at a concrete failing run (`cp` with no operands). -/
theorem run_nonzero_exit_is_normal_witness :
    ((Command "cp" []).Run ⟨true, some "exit status 1", "", "cp: missing file operand"⟩).status = .finished ∧
    ((Command "cp" []).Run ⟨true, some "exit status 1", "", "cp: missing file operand"⟩).Failure = .ok true ∧
    ((Command "cp" []).Run ⟨true, some "exit status 1", "", "cp: missing file operand"⟩).Success = .ok false ∧
    ((Command "cp" []).Run ⟨true, some "exit status 1", "", "cp: missing file operand"⟩).Error =
      .ok (some "exit status 1") :=
  run_nonzero_exit_is_normal (Command "cp" [])
    ⟨true, some "exit status 1", "", "cp: missing file operand"⟩ (by simp)

/-- Claim C9: before any package-level `Run()`, the last-result slot is the
nil pointer, so every package-level query crashes with a nil pointer
dereference (already at `pkgCmd.t.Helper()`) — which is not the usage-error
abort the spec prescribes. -/
theorem pkg_queries_nil_panic_before_run :
    pkgError initialPkgCmd = .nilPanic ∧
    pkgStdout initialPkgCmd = .nilPanic ∧
    pkgStderr initialPkgCmd = .nilPanic ∧
    pkgSuccess initialPkgCmd = .nilPanic ∧
    pkgFailure initialPkgCmd = .nilPanic ∧
    pkgStdoutContains initialPkgCmd "missing" [] = .nilPanic ∧
    pkgStderrContains initialPkgCmd "missing" [] = .nilPanic ∧
    pkgStdoutMatches initialPkgCmd "missing" [] = .nilPanic ∧
    pkgStderrMatches initialPkgCmd "missing" [] = .nilPanic ∧
    (TestOutcome.nilPanic : TestOutcome (Option GoError)) ≠ .fatal ErrCmdNotFinished ∧
    (TestOutcome.nilPanic : TestOutcome (Option GoError)) ≠ .fatal ErrUninitializedCmd := by
  refine ⟨rfl, rfl, rfl, rfl, rfl, rfl, rfl, rfl, rfl, ?_, ?_⟩ <;> simp

/-- Claim C10: when the launch inside `Start()` fails, the handle still moves
to `running` with the launch error stored in `exitError`; `Success()`,
`Failure()` and `Error()` therefore stay inaccessible (they abort with
`ErrCmdNotFinished`) until `Wait()`, and `Kill()` on such a handle
dereferences the nil `Process`. -/
theorem start_launch_failure_then_kill_panics (c : Cmd) (e : GoError)
    (h1 : c.stdoutSet = false) (h2 : c.stderrSet = false)
    (h3 : c.process = none) :
    ∃ c1, c.Start ⟨none, none, some e⟩ = .ok c1 ∧
      c1.status = .running ∧
      c1.exitError = some e ∧
      c1.Success = .fatal ErrCmdNotFinished ∧
      c1.Failure = .fatal ErrCmdNotFinished ∧
      c1.Error = .fatal ErrCmdNotFinished ∧
      ∀ killErr, c1.Kill killErr = .nilPanic := by
  have hstart : c.Start ⟨none, none, some e⟩ =
      .ok { c with
        stdoutSet := true
        stderrSet := true
        exitError := some e
        status := .running } := by
    simp [Cmd.Start, h1, h2, h3]
  refine ⟨_, hstart, rfl, rfl, rfl, rfl, rfl, fun killErr => ?_⟩
  simp [Cmd.Kill, Cmd.validateHasStarted, h3]

/-- Witness for C10 at a concrete unresolvable executable on a fresh handle. -/
theorem start_launch_failure_then_kill_panics_witness :
    ∃ c1, (Command "myunknowncommand" []).Start
        ⟨none, none, some "exec: not found"⟩ = .ok c1 ∧
      c1.status = .running ∧
      c1.exitError = some "exec: not found" ∧
      c1.Success = .fatal ErrCmdNotFinished ∧
      c1.Failure = .fatal ErrCmdNotFinished ∧
      c1.Error = .fatal ErrCmdNotFinished ∧
      ∀ killErr, c1.Kill killErr = .nilPanic :=
  start_launch_failure_then_kill_panics (Command "myunknowncommand" [])
    "exec: not found" rfl rfl rfl

/-- Every status rank is at most the rank of `finished`. -/
theorem statusRank_le_two (s : Status) : statusRank s ≤ 2 := by
  cases s <;> simp [statusRank]

/-- A handle satisfying the invariant that has started has its stdout wired. -/
theorem handleInv_stdoutSet (c : Cmd) (h : handleInv c = true)
    (hs : c.status = .running ∨ c.status = .finished) : c.stdoutSet = true := by
  simp only [handleInv, Bool.or_eq_true, beq_iff_eq] at h
  rcases h with h1 | h1
  · rcases hs with h2 | h2 <;> rw [h2] at h1 <;> exact Status.noConfusion h1
  · exact h1

/-- A handle satisfying the invariant whose stdout is not yet wired is still
`initialized`. -/
theorem handleInv_initialized (c : Cmd) (h : handleInv c = true)
    (hso : c.stdoutSet = false) : c.status = .initialized := by
  simp only [handleInv, Bool.or_eq_true, beq_iff_eq] at h
  rcases h with h1 | h1
  · exact h1
  · rw [hso] at h1
    exact Bool.noConfusion h1

/-- `handleInv` is preserved by every operation, and no operation lowers the
status rank of a handle satisfying it: a repeated launch dies in
`StdoutPipe`'s "already set" check before the status is touched. -/
theorem handleInv_applyOp (c : Cmd) (op : Op) (h : handleInv c = true) :
    handleInv (c.applyOp op) = true ∧
      statusRank c.status ≤ statusRank ((c.applyOp op).status) := by
  cases op with
  | runOp res =>
    constructor
    · rcases res with ⟨st, ee, so, se⟩
      cases ee <;> simp [handleInv, Cmd.applyOp, Cmd.Run]
    · have hst : (c.applyOp (.runOp res)).status = .finished := rfl
      rw [hst]
      simpa [statusRank] using statusRank_le_two c.status
  | startOp env =>
    rcases env with ⟨e1, e2, e3⟩
    cases hso : c.stdoutSet with
    | true =>
      have hc : c.applyOp (.startOp ⟨e1, e2, e3⟩) = c := by
        simp [Cmd.applyOp, Cmd.Start, hso]
      rw [hc]
      exact ⟨h, Nat.le_refl _⟩
    | false =>
      cases hpr : c.process with
      | some u =>
        have hc : c.applyOp (.startOp ⟨e1, e2, e3⟩) = c := by
          simp [Cmd.applyOp, Cmd.Start, hso, hpr]
        rw [hc]
        exact ⟨h, Nat.le_refl _⟩
      | none =>
        cases e1 with
        | some e =>
          have hc : c.applyOp (.startOp ⟨some e, e2, e3⟩) = c := by
            simp [Cmd.applyOp, Cmd.Start, hso, hpr]
          rw [hc]
          exact ⟨h, Nat.le_refl _⟩
        | none =>
          cases hse : c.stderrSet with
          | true =>
            have hc : c.applyOp (.startOp ⟨none, e2, e3⟩) = c := by
              simp [Cmd.applyOp, Cmd.Start, hso, hpr, hse]
            rw [hc]
            exact ⟨h, Nat.le_refl _⟩
          | false =>
            cases e2 with
            | some e =>
              have hc : c.applyOp (.startOp ⟨none, some e, e3⟩) = c := by
                simp [Cmd.applyOp, Cmd.Start, hso, hpr, hse]
              rw [hc]
              exact ⟨h, Nat.le_refl _⟩
            | none =>
              have hinit : c.status = .initialized :=
                handleInv_initialized c h hso
              have hst : (c.applyOp (.startOp ⟨none, none, e3⟩)).status =
                  .running := by
                cases e3 <;> simp [Cmd.applyOp, Cmd.Start, hso, hpr, hse]
              have hsd : (c.applyOp (.startOp ⟨none, none, e3⟩)).stdoutSet =
                  true := by
                cases e3 <;> simp [Cmd.applyOp, Cmd.Start, hso, hpr, hse]
              refine ⟨by simp [handleInv, hsd], ?_⟩
              rw [hinit, hst]
              simp [statusRank]
  | waitOp res =>
    by_cases hs : c.status = .running ∨ c.status = .finished
    · have hso : c.stdoutSet = true := handleInv_stdoutSet c h hs
      have hst : (c.applyOp (.waitOp res)).status = .finished := by
        cases res <;> simp [Cmd.applyOp, Cmd.Wait, Cmd.validateHasStarted, hs]
      have hsd : (c.applyOp (.waitOp res)).stdoutSet = true := by
        cases res <;>
          simp [Cmd.applyOp, Cmd.Wait, Cmd.validateHasStarted, hs, hso]
      refine ⟨by simp [handleInv, hsd], ?_⟩
      rw [hst]
      simpa [statusRank] using statusRank_le_two c.status
    · have hc : c.applyOp (.waitOp res) = c := by
        simp [Cmd.applyOp, Cmd.Wait, Cmd.validateHasStarted, hs]
      rw [hc]
      exact ⟨h, Nat.le_refl _⟩
  | killOp killErr =>
    by_cases hs : c.status = .running ∨ c.status = .finished
    · cases hp : c.process with
      | none =>
        have hc : c.applyOp (.killOp killErr) = c := by
          simp [Cmd.applyOp, Cmd.Kill, Cmd.validateHasStarted, hs, hp]
        rw [hc]
        exact ⟨h, Nat.le_refl _⟩
      | some u =>
        cases killErr with
        | some e =>
          have hc : c.applyOp (.killOp (some e)) = c := by
            simp [Cmd.applyOp, Cmd.Kill, Cmd.validateHasStarted, hs, hp]
          rw [hc]
          exact ⟨h, Nat.le_refl _⟩
        | none =>
          have hso : c.stdoutSet = true := handleInv_stdoutSet c h hs
          have hst : (c.applyOp (.killOp none)).status = .finished := by
            simp [Cmd.applyOp, Cmd.Kill, Cmd.validateHasStarted, hs, hp]
          have hsd : (c.applyOp (.killOp none)).stdoutSet = true := by
            simp [Cmd.applyOp, Cmd.Kill, Cmd.validateHasStarted, hs, hp, hso]
          refine ⟨by simp [handleInv, hsd], ?_⟩
          rw [hst]
          simpa [statusRank] using statusRank_le_two c.status
    · have hc : c.applyOp (.killOp killErr) = c := by
        simp [Cmd.applyOp, Cmd.Kill, Cmd.validateHasStarted, hs]
      rw [hc]
      exact ⟨h, Nat.le_refl _⟩

/-- Claim C4: the state machine is exactly `Initialized --Run()--> Finished`,
`Initialized --Start()--> Running --Wait()/Kill()--> Finished`, and the state
is monotonic.  Every handle `Command` constructs satisfies `handleInv` (third
conjunct), every operation preserves it (second conjunct), and along every
operation sequence on such a handle the status rank never decreases (first
conjunct): once the status has left `initialized`, `cmd.Stdout` is wired, so
a repeated `Start()` aborts in `StdoutPipe`'s "exec: Stdout already set"
check before it can assign `status = running`, and `Run()`, `Wait()` and
`Kill()` only ever move the status forward to `finished`. -/
theorem status_monotone_all_ops (c : Cmd) (ops : List Op)
    (h : handleInv c = true) :
    statusRank c.status ≤ statusRank ((ops.foldl Cmd.applyOp c).status) ∧
    handleInv (ops.foldl Cmd.applyOp c) = true ∧
    (∀ name args, handleInv (Command name args) = true) := by
  have main : ∀ (l : List Op) (d : Cmd), handleInv d = true →
      handleInv (l.foldl Cmd.applyOp d) = true ∧
        statusRank d.status ≤ statusRank ((l.foldl Cmd.applyOp d).status) := by
    intro l
    induction l with
    | nil => exact fun d hd => ⟨hd, Nat.le_refl _⟩
    | cons op rest ih =>
      intro d hd
      obtain ⟨ha, hb⟩ := handleInv_applyOp d op hd
      obtain ⟨hc, hd2⟩ := ih (d.applyOp op) ha
      exact ⟨hc, hb.trans hd2⟩
  exact ⟨(main ops c h).2, (main ops c h).1, fun name args => rfl⟩

/-- Witness for C4: a fresh handle taken through `start`, `wait`, and a
second — fatal, state-preserving — `start`. -/
theorem status_monotone_all_ops_witness :
    statusRank (Command "sleep" ["1"]).status ≤
      statusRank (([Op.startOp ⟨none, none, none⟩, Op.waitOp none,
          Op.startOp ⟨none, none, none⟩].foldl Cmd.applyOp
          (Command "sleep" ["1"])).status) ∧
    handleInv ([Op.startOp ⟨none, none, none⟩, Op.waitOp none,
        Op.startOp ⟨none, none, none⟩].foldl Cmd.applyOp
        (Command "sleep" ["1"])) = true ∧
    (∀ name args, handleInv (Command name args) = true) :=
  status_monotone_all_ops (Command "sleep" ["1"])
    [Op.startOp ⟨none, none, none⟩, Op.waitOp none,
      Op.startOp ⟨none, none, none⟩] (by decide)

/-- Modelled from the spec (§4.3): the short-circuit form of the matcher for
an already-final buffer — evaluate the (lowercasing) predicate once against
the buffer content, no polling. -/
def singleEval (testFunc : String → String → Bool) (content expected : String) :
    Bool :=
  testFunc (goToLower content) expected

/-- Claim C8: on a buffer that is already final and immutable — every poll
sees the same content — running the polling matcher is equivalent to the
single immediate evaluation the spec allows as a short-circuit, for any
number `n ≥ 1` of polls the ticker delivers. -/
theorem polling_eq_singleEval_on_final (tf : String → String → Bool)
    (content expected : String) (n : Nat) (hn : 1 ≤ n) :
    retryStringTest tf (List.replicate n content) expected =
      singleEval tf content expected :=
  retryStringTest_replicate tf content expected n hn

/-- Witness for C8 at a concrete final buffer and ten polls. -/
theorem polling_eq_singleEval_on_final_witness :
    retryStringTest goContains (List.replicate 10 "cp: Missing File Operand")
        "missing" =
      singleEval goContains "cp: Missing File Operand" "missing" :=
  polling_eq_singleEval_on_final goContains "cp: Missing File Operand" "missing"
    10 (by decide)

/-- The handle of a finished `cp` run whose stderr holds a lowercase
"missing". -/
def cpFinished : Cmd :=
  (Command "cp" []).Run ⟨true, some "exit status 1", "", "cp: missing file operand"⟩

/-- Claim C1, counterexample: on a finished handle whose stderr contains
"missing", the substring query with "MISSING" succeeds, but the
regular-expression query with the literal pattern "MISSING" returns
`ok false`: the pattern is compiled unchanged while only the buffer snapshot
is lowercased, so `*Matches` is not case-insensitive in the pattern. -/
theorem matches_uppercase_literal_fails :
    goContains cpFinished.stderr.content "missing" = true ∧
    cpFinished.StderrContains "MISSING"
      (List.replicate 10 cpFinished.stderr.content) = .ok true ∧
    cpFinished.StderrMatches "MISSING"
      (List.replicate 10 cpFinished.stderr.content) = .ok false := by
  refine ⟨by decide, by decide, by decide⟩

/-- Claim C1, amended: on a finished handle (with the ticker polling its
frozen buffer `n ≥ 1` times) the `*Contains` queries are case-insensitive —
both the query string and the captured output are lowercased before the
substring test — while the `*Matches` queries lowercase only the captured
output and leave the pattern untouched: a lowercase literal pattern matches
output of any case, but an uppercase literal pattern such as "MISSING" does
not match output containing only "missing". -/
theorem contains_case_insensitive_matches_content_only (c : Cmd)
    (s p : String) (n : Nat) (hst : c.status = .finished) (hn : 1 ≤ n) :
    c.StdoutContains s (List.replicate n c.stdout.content) =
      .ok (goContains (goToLower c.stdout.content) (goToLower s)) ∧
    c.StderrContains s (List.replicate n c.stderr.content) =
      .ok (goContains (goToLower c.stderr.content) (goToLower s)) ∧
    c.StdoutMatches p (List.replicate n c.stdout.content) =
      .ok (goContains (goToLower c.stdout.content) p) ∧
    c.StderrMatches p (List.replicate n c.stderr.content) =
      .ok (goContains (goToLower c.stderr.content) p) := by
  have hv : c.validateHasStarted = none := by
    simp [Cmd.validateHasStarted, hst]
  refine ⟨?_, ?_, ?_, ?_⟩
  · simp only [Cmd.StdoutContains, hv]
    rw [retryStringTest_replicate goContains c.stdout.content (goToLower s) n hn]
  · simp only [Cmd.StderrContains, hv]
    rw [retryStringTest_replicate goContains c.stderr.content (goToLower s) n hn]
  · simp only [Cmd.StdoutMatches, hv]
    rw [retryStringTest_replicate (fun got _ => literalMatchString p got)
      c.stdout.content p n hn]
    rfl
  · simp only [Cmd.StderrMatches, hv]
    rw [retryStringTest_replicate (fun got _ => literalMatchString p got)
      c.stderr.content p n hn]
    rfl

/-- Witness for the amended C1 at the concrete `cp` handle. -/
theorem contains_case_insensitive_matches_content_only_witness :
    cpFinished.StdoutContains "MISSING"
        (List.replicate 10 cpFinished.stdout.content) =
      .ok (goContains (goToLower cpFinished.stdout.content) (goToLower "MISSING")) ∧
    cpFinished.StderrContains "MISSING"
        (List.replicate 10 cpFinished.stderr.content) =
      .ok (goContains (goToLower cpFinished.stderr.content) (goToLower "MISSING")) ∧
    cpFinished.StdoutMatches "missing"
        (List.replicate 10 cpFinished.stdout.content) =
      .ok (goContains (goToLower cpFinished.stdout.content) "missing") ∧
    cpFinished.StderrMatches "missing"
        (List.replicate 10 cpFinished.stderr.content) =
      .ok (goContains (goToLower cpFinished.stderr.content) "missing") :=
  contains_case_insensitive_matches_content_only cpFinished "MISSING" "missing"
    10 rfl (by decide)

/-- Concatenation distributes over `listJoin`. -/
theorem listJoin_append (a b : List (List Char)) :
    listJoin (a ++ b) = listJoin a ++ listJoin b := by
  induction a with
  | nil => simp [listJoin]
  | cons x xs ih => simp [listJoin, ih, List.append_assoc]

/-- Folding the pump step from any starting buffer content appends what it
would produce from the empty buffer. -/
theorem foldl_pumpStep (toks : List (List Char)) (init : List Char) :
    toks.foldl pumpStep init = init ++ pumpRun toks := by
  induction toks generalizing init with
  | nil => simp [pumpRun]
  | cons t ts ih =>
    show List.foldl pumpStep (pumpStep init t) ts =
      init ++ List.foldl pumpStep (pumpStep [] t) ts
    rw [ih (pumpStep init t), ih (pumpStep [] t)]
    simp [pumpStep, List.append_assoc]

/-- The pump's buffer after one more token. -/
theorem pumpRun_cons (t : List Char) (ts : List (List Char)) :
    pumpRun (t :: ts) = t ++ '\n' :: pumpRun ts := by
  rw [pumpRun, List.foldl_cons, foldl_pumpStep]
  simp [pumpStep]

/-- The pump's final buffer is the concatenation of its tokens, each with a
`'\n'` restored. -/
theorem pumpRun_eq_join (toks : List (List Char)) :
    pumpRun toks = listJoin (toks.map (fun t => t ++ ['\n'])) := by
  induction toks with
  | nil => rfl
  | cons t ts ih =>
    rw [pumpRun_cons, ih]
    simp [listJoin, List.append_assoc]

/-- The pump buffer after `a` appends is extended, not rewritten, by the
buffer after `b ≥ a` appends. -/
theorem pumpRun_take_le (M : List (List Char)) (a b : Nat) (hab : a ≤ b) :
    ∃ t, pumpRun (M.take a) ++ t = pumpRun (M.take b) := by
  refine ⟨listJoin (((M.take b).drop a).map (fun tok => tok ++ ['\n'])), ?_⟩
  have h1 : M.take a = (M.take b).take a := by
    rw [List.take_take, Nat.min_eq_left hab]
  rw [h1, pumpRun_eq_join, pumpRun_eq_join, ← listJoin_append, ← List.map_append,
    List.take_append_drop]

/-- Any pump snapshot is extended by the complete pump output. -/
theorem pumpRun_take_le_all (M : List (List Char)) (a : Nat) :
    ∃ t, pumpRun (M.take a) ++ t = pumpRun M := by
  rcases Nat.le_total a M.length with hle | hge
  · have h := pumpRun_take_le M a M.length hle
    rwa [List.take_length] at h
  · refine ⟨[], ?_⟩
    rw [List.take_of_length_le hge, List.append_nil]

/-- Claim C6: the output buffer is append-only: the snapshot a reader takes
after the pump's first `j` appends is a leading segment of the snapshot after
`k ≥ j` appends, every snapshot is a leading segment of the pump's final
content (so text is never deleted, reordered or duplicated, and appends stay
in FIFO order), and once all appends are done the snapshot equals the final,
immutable content. -/
theorem buffer_snapshots_are_prefixes (data : List Char) (j k : Nat)
    (h : j ≤ k) :
    (∃ t, pumpSnapshot data j ++ t = pumpSnapshot data k) ∧
    (∃ t, pumpSnapshot data k ++ t = pumpContent data) ∧
    pumpSnapshot data (scanLines data).length = pumpContent data := by
  refine ⟨pumpRun_take_le (scanLines data) j k h,
    pumpRun_take_le_all (scanLines data) k, ?_⟩
  rw [pumpSnapshot, List.take_length, pumpContent]

/-- Witness for C6 on a concrete three-line stream. -/
theorem buffer_snapshots_are_prefixes_witness :
    (∃ t, pumpSnapshot "l1\nl2\nl3\n".toList 1 ++ t =
        pumpSnapshot "l1\nl2\nl3\n".toList 2) ∧
    (∃ t, pumpSnapshot "l1\nl2\nl3\n".toList 2 ++ t =
        pumpContent "l1\nl2\nl3\n".toList) ∧
    pumpSnapshot "l1\nl2\nl3\n".toList (scanLines "l1\nl2\nl3\n".toList).length =
      pumpContent "l1\nl2\nl3\n".toList :=
  buffer_snapshots_are_prefixes "l1\nl2\nl3\n".toList 1 2 (by decide)

/-- Claim C7, counterexample: the pump does not reproduce the child's bytes
for every input.  A line terminated by `"\r\n"` loses its `'\r'` (the scanner
strips it and the pump restores only `'\n'`), and a final line without a
terminator gains a `'\n'` it never had. -/
theorem pump_alters_crlf_and_unterminated :
    pumpContent ['a', '\r', '\n'] = ['a', '\n'] ∧
    pumpContent ['a', '\r', '\n'] ≠ ['a', '\r', '\n'] ∧
    pumpContent ['b'] = ['b', '\n'] ∧
    pumpContent ['b'] ≠ ['b'] :=
  ⟨by decide, by decide, by decide, by decide⟩

/-- A line with no `'\n'` inside and no terminal `'\r'`. -/
def goodLine (l : List Char) : Bool :=
  l.all (fun ch => ch ≠ '\n') && !(l.getLast? == some '\r')

/-- `dropCR` keeps a token that does not end in `'\r'` intact. -/
theorem dropCR_of_no_cr (l : List Char) (h : ¬ l.getLast? = some '\r') :
    dropCR l = l := by
  simp [dropCR, h]

/-- The scanner takes one `'\n'`-free line off the front of the stream. -/
theorem scanLinesAux_line (l : List Char) (rest acc : List Char)
    (h : l.all (fun ch => ch ≠ '\n') = true) :
    scanLinesAux (l ++ '\n' :: rest) acc =
      dropCR (acc.reverse ++ l) :: scanLinesAux rest [] := by
  induction l generalizing acc with
  | nil => simp [scanLinesAux]
  | cons ch l' ih =>
    rw [List.all_cons, Bool.and_eq_true] at h
    obtain ⟨hch, hl'⟩ := h
    have hne : ¬ ch = '\n' := by simpa using hch
    have hstep : scanLinesAux (ch :: (l' ++ '\n' :: rest)) acc =
        scanLinesAux (l' ++ '\n' :: rest) (ch :: acc) := by
      simp [scanLinesAux, hne]
    rw [List.cons_append, hstep, ih (ch :: acc) hl']
    simp [List.append_assoc]

/-- Claim C7, amended: for a stream that is a sequence of lines each
terminated by `'\n'`, with no `'\n'` inside a line and no `'\r'` at the end
of a line, the pump reproduces the child's bytes exactly: each token gets its
`'\n'` terminator restored and the accumulated buffer equals the input.  (The
counterexample's two cases — a `"\r\n"` terminator and an unterminated final
line — are exactly the inputs this hypothesis excludes.) -/
theorem pump_preserves_lf_lines (lines : List (List Char))
    (h : ∀ l ∈ lines, goodLine l = true) :
    pumpContent (listJoin (lines.map (fun l => l ++ ['\n']))) =
      listJoin (lines.map (fun l => l ++ ['\n'])) := by
  induction lines with
  | nil => rfl
  | cons l ls ih =>
    have hl := h l (by simp)
    rw [goodLine, Bool.and_eq_true] at hl
    obtain ⟨hn, hr⟩ := hl
    have hr' : ¬ l.getLast? = some '\r' := by simpa using hr
    have hrest := ih (fun x hx => h x (by simp [hx]))
    have hshape : listJoin ((l :: ls).map (fun x => x ++ ['\n'])) =
        l ++ '\n' :: listJoin (ls.map (fun x => x ++ ['\n'])) := by
      simp [listJoin, List.append_assoc]
    rw [hshape, pumpContent, scanLines, scanLinesAux_line l _ [] hn,
      List.reverse_nil, List.nil_append, dropCR_of_no_cr l hr', pumpRun_cons]
    rw [pumpContent, scanLines] at hrest
    rw [hrest]

/-- Witness for the amended C7 on the two-line stream of the repository's
multiline test. -/
theorem pump_preserves_lf_lines_witness :
    pumpContent (listJoin (["line 1".toList, "line 2".toList].map
        (fun l => l ++ ['\n']))) =
      listJoin (["line 1".toList, "line 2".toList].map (fun l => l ++ ['\n'])) :=
  pump_preserves_lf_lines ["line 1".toList, "line 2".toList] (by decide)

end Testcli
